import Mathlib

/-!
Verification of the SCPI command dispatcher and line server of
`workbench/utils/server.py` (module constants, `ScpiInstrument` with its
status model and IEEE-488.2 common commands, the parameter-coercion
helpers, command-registry resolution, and `ScpiServer.client_thread`
framing), shallowly embedded in Lean.

Python machine-level details that the embedding makes explicit:
* Python `int` is unbounded, so registers are `Nat` and error codes `Int`.
* Python `float` values appearing in the analysed helpers are finite
  decimals; they are modelled as `ℚ` (IEEE-754 rounding plays no role at
  the magnitudes exercised here, and `inf`/`nan` tokens are out of scope).
* `str.upper`/`str.strip` are modelled for ASCII text, which is all the
  SCPI grammar admits.
-/

namespace Workbench

/-- ESR bit constants, from the top of server.py. -/
def ESR_OPC : Nat := 0x01

def ESR_QUERY_ERROR : Nat := 0x04

def ESR_DDE_ERROR : Nat := 0x08

def ESR_EXEC_ERROR : Nat := 0x10

def ESR_CMD_ERROR : Nat := 0x20

def STB_ESB : Nat := 0x20

/-- The `SCPIError(code, message)` exception payload. -/
structure SCPIError where
  code : Int
  message : String
deriving DecidableEq, Repr

instance {ε α : Type} [DecidableEq ε] [DecidableEq α] :
    DecidableEq (Except ε α)
  | Except.error a, Except.error b =>
    if h : a = b then isTrue (by rw [h]) else isFalse (by simp [h])
  | Except.error _, Except.ok _ => isFalse (by simp)
  | Except.ok _, Except.error _ => isFalse (by simp)
  | Except.ok a, Except.ok b =>
    if h : a = b then isTrue (by rw [h]) else isFalse (by simp [h])

/-- Mutable state of a `ScpiInstrument`: error queue, ESR, SRE, plus a
device-state component `δ` for subclasses (`Unit` for the base class). -/
structure GSession (δ : Type) where
  errors : List (Int × String)
  esr : Nat
  sre : Nat
  dev : δ
deriving Repr, DecidableEq

/-- `ScpiInstrument.push_error`: append `(code, message)` to the error
queue, then OR an ESR bit chosen by the same `if`/`elif` chain as the
source. -/
def push_error {δ : Type} (s : GSession δ) (code : Int) (message : String) :
    GSession δ :=
  let s1 := { s with errors := s.errors ++ [(code, message)] }
  if code ≤ -100 ∧ code > -200 then { s1 with esr := s1.esr ||| ESR_CMD_ERROR }
  else if code ≤ -200 ∧ code > -300 then { s1 with esr := s1.esr ||| ESR_EXEC_ERROR }
  else if code ≤ -300 ∧ code > -400 then { s1 with esr := s1.esr ||| ESR_DDE_ERROR }
  else if code ≤ -400 then { s1 with esr := s1.esr ||| ESR_QUERY_ERROR }
  else { s1 with esr := s1.esr ||| ESR_EXEC_ERROR }

/-- Outcome of invoking a bound handler: normal return, raised
`SCPIError`, or any other raised exception (`fault`).  The carried
session is the state at return/raise time, so partial mutation before a
raise is preserved, as in Python. -/
inductive HOutcome (δ : Type) where
  | ok : Option String → GSession δ → HOutcome δ
  | scpiErr : Int → String → GSession δ → HOutcome δ
  | fault : GSession δ → HOutcome δ

/-- One resolved `(regex, bound-handler)` pair.  The matcher embeds
`regex.match(command) is not None`; the handler receives the raw matched
line (from which it re-derives any capture groups). -/
structure Command (δ : Type) where
  matcher : String → Bool
  run : String → GSession δ → HOutcome δ

/-- `ScpiInstrument.handle_command`: first matching pattern wins; no
match pushes `(-113, "Undefined header")`; a raised `SCPIError` pushes
its own code/message; any other exception pushes `(-300, "Device
error")`.  In every case a pair (response, post-state) is returned — no
exception escapes. -/
def handle_command {δ : Type} (cmds : List (Command δ)) (s : GSession δ)
    (line : String) : Option String × GSession δ :=
  match cmds.find? (fun c => c.matcher line) with
  | some c =>
    match c.run line s with
    | .ok r s1 => (r, s1)
    | .scpiErr code msg s1 => (none, push_error s1 code msg)
    | .fault s1 => (none, push_error s1 (-300) "Device error")
  | none => (none, push_error s (-113) "Undefined header")

/-- ASCII uppercase of one character (Python `str.upper` restricted to
the ASCII text the SCPI grammar uses). -/
def upperChar (c : Char) : Char :=
  if 97 ≤ c.toNat ∧ c.toNat ≤ 122 then Char.ofNat (c.toNat - 32) else c

/-- Python `str.upper` on ASCII text. -/
def pyUpper (s : String) : String := String.mk (s.toList.map upperChar)

/-- Python `\s` / `str.strip` whitespace set (ASCII part). -/
def isPySpace (c : Char) : Bool :=
  c = ' ' || c = '\t' || c = '\n' || c = '\r' || c = '\x0b' || c = '\x0c'

def isAsciiDigit (c : Char) : Bool := '0' ≤ c && c ≤ '9'

/-- Decimal value of a digit string (`int(...)` on `\d+`). -/
def natOfDigits (l : List Char) : Nat :=
  l.foldl (fun a c => a * 10 + (c.toNat - 48)) 0

/-- The capture group of `^\*SRE\s+(\d+)$` (case-insensitive), or `none`
when the line does not match. -/
def sreSetArg (line : String) : Option String :=
  match (pyUpper line).toList with
  | '*' :: 'S' :: 'R' :: 'E' :: rest =>
    let sp := rest.takeWhile isPySpace
    let ds := rest.dropWhile isPySpace
    if sp ≠ [] ∧ ds ≠ [] ∧ ds.all isAsciiDigit then some (String.mk ds)
    else none
  | _ => none

/-- `^SYST(?:em)?:ERR(?:or)?\?$` with `re.IGNORECASE`. -/
def systErrMatch (line : String) : Bool :=
  pyUpper line = "SYST:ERR?" || pyUpper line = "SYSTEM:ERR?" ||
  pyUpper line = "SYST:ERROR?" || pyUpper line = "SYSTEM:ERROR?"

/-- `*IDN?` → identity string. -/
def get_identity (identity : String) : Command Unit :=
  ⟨fun l => pyUpper l = "*IDN?", fun _ s => .ok (some identity) s⟩

/-- `*OPC?` → set ESR OPC bit, return "1". -/
def get_operation_complete : Command Unit :=
  ⟨fun l => pyUpper l = "*OPC?",
   fun _ s => .ok (some "1") { s with esr := s.esr ||| ESR_OPC }⟩

/-- `*RST` → delegates to `clear_status`; returns `None`. -/
def reset : Command Unit :=
  ⟨fun l => pyUpper l = "*RST",
   fun _ s => .ok none { s with errors := [], esr := 0 }⟩

/-- `*CLS` → clear error queue and ESR; returns `None`. -/
def clear_status : Command Unit :=
  ⟨fun l => pyUpper l = "*CLS",
   fun _ s => .ok none { s with errors := [], esr := 0 }⟩

/-- `*ESR?` → current ESR as decimal string, then ESR := 0. -/
def esr_query : Command Unit :=
  ⟨fun l => pyUpper l = "*ESR?",
   fun _ s => .ok (some (toString s.esr)) { s with esr := 0 }⟩

/-- `*SRE <mask>` → SRE := int(mask) & 0xFF; returns the empty string. -/
def sre_set : Command Unit :=
  ⟨fun l => (sreSetArg l).isSome,
   fun l s =>
     .ok (some "")
       { s with sre := natOfDigits ((sreSetArg l).getD "").toList &&& 0xFF }⟩

/-- `*SRE?` → current SRE as decimal string. -/
def sre_query : Command Unit :=
  ⟨fun l => pyUpper l = "*SRE?", fun _ s => .ok (some (toString s.sre)) s⟩

/-- `*STB?` → 0x20 iff `ESR & SRE` is non-zero, else 0. -/
def stb_query : Command Unit :=
  ⟨fun l => pyUpper l = "*STB?",
   fun _ s =>
     .ok (some (toString (if s.esr &&& s.sre ≠ 0 then STB_ESB else 0))) s⟩

/-- `SYSTem:ERRor?` → pop oldest queue entry (or `(0, "No error")`) and
format it as `<code>,"<message>"`.  The f-string inserts the message
verbatim: embedded quotes are NOT doubled. -/
def get_system_error : Command Unit :=
  ⟨systErrMatch,
   fun _ s =>
     match s.errors with
     | [] => .ok (some ("0," ++ "\"" ++ "No error" ++ "\"")) s
     | (code, msg) :: rest =>
       .ok (some (toString code ++ "," ++ "\"" ++ msg ++ "\""))
         { s with errors := rest }⟩

/-- The nine base-class commands in their registration (source) order. -/
def baseCommands (identity : String) : List (Command Unit) :=
  [get_identity identity, get_operation_complete, reset, clear_status,
   esr_query, sre_set, sre_query, stb_query, get_system_error]

/-- A fresh `ScpiInstrument` session: empty queue, ESR = SRE = 0. -/
def freshSession : GSession Unit := ⟨[], 0, 0, ()⟩

/-- Bytes (as text) written back for one command, from
`ScpiServer.client_thread`: `if response is not None:
sendall(response.encode() + b"\n")`. -/
def respBytes : Option String → String
  | some r => r ++ "\n"
  | none => ""

/-- Python `str.strip` on a character list (ASCII whitespace). -/
def stripChars (l : List Char) : List Char :=
  ((l.dropWhile isPySpace).reverse.dropWhile isPySpace).reverse

/-- Python `int(str)`: optional sign, decimal digits, surrounding
whitespace allowed (digit-group underscores are not modelled). -/
def pyInt (s : String) : Option Int :=
  match stripChars s.toList with
  | '+' :: ds =>
    if ds ≠ [] ∧ ds.all isAsciiDigit then some (natOfDigits ds : Int) else none
  | '-' :: ds =>
    if ds ≠ [] ∧ ds.all isAsciiDigit then some (-(natOfDigits ds : Int)) else none
  | ds =>
    if ds ≠ [] ∧ ds.all isAsciiDigit then some (natOfDigits ds : Int) else none

/-- Split a token at the first `e`/`E` (exponent marker). -/
def splitAtExp : List Char → List Char × Option (List Char)
  | [] => ([], none)
  | c :: rest =>
    if c = 'e' || c = 'E' then ([], some rest)
    else
      let p := splitAtExp rest
      (c :: p.1, p.2)

/-- Digits, optionally with one decimal point, needing at least one
digit overall: the mantissa accepted by Python `float`, as the pair
(all digits as one integer, number of fraction digits). -/
def parseMantissa (l : List Char) : Option (Nat × Nat) :=
  let ip := l.takeWhile isAsciiDigit
  match l.drop ip.length with
  | [] => if ip ≠ [] then some (natOfDigits ip, 0) else none
  | '.' :: fp =>
    if fp.all isAsciiDigit ∧ (ip ≠ [] ∨ fp ≠ []) then
      some (natOfDigits ip * 10 ^ fp.length + natOfDigits fp, fp.length)
    else none
  | _ => none

/-- Optional sign and digits (an exponent body). -/
def parseSignedDigits (l : List Char) : Option Int :=
  match l with
  | '+' :: ds =>
    if ds ≠ [] ∧ ds.all isAsciiDigit then some (natOfDigits ds : Int) else none
  | '-' :: ds =>
    if ds ≠ [] ∧ ds.all isAsciiDigit then some (-(natOfDigits ds : Int)) else none
  | ds =>
    if ds ≠ [] ∧ ds.all isAsciiDigit then some (natOfDigits ds : Int) else none

/-- Python `float(str)` on the finite-decimal tokens the SCPI helpers
see, valued in `ℚ` (`inf`/`nan` and digit underscores are out of
scope). -/
def pyFloat (s : String) : Option ℚ :=
  let l := stripChars s.toList
  let sb : Int × List Char :=
    match l with
    | '+' :: r => (1, r)
    | '-' :: r => (-1, r)
    | r => (1, r)
  let me := splitAtExp sb.2
  match parseMantissa me.1 with
  | none => none
  | some mf =>
    match me.2 with
    | none => some (mkRat (sb.1 * (mf.1 : Int)) (10 ^ mf.2))
    | some e =>
      match parseSignedDigits e with
      | none => none
      | some ev =>
        if 0 ≤ ev then
          some (mkRat (sb.1 * ((mf.1 * 10 ^ ev.toNat : Nat) : Int)) (10 ^ mf.2))
        else
          some (mkRat (sb.1 * (mf.1 : Int)) (10 ^ mf.2 * 10 ^ (-ev).toNat))

/-- `ScpiInstrument.get_int_parameter`. -/
def get_int_parameter (parameter : String) (minimum maximum default_value : Int)
    (check_range : Bool) : Except SCPIError Int :=
  if pyUpper parameter = "MIN" ∨ pyUpper parameter = "MINIMUM" then .ok minimum
  else if pyUpper parameter = "MAX" ∨ pyUpper parameter = "MAXIMUM" then .ok maximum
  else if pyUpper parameter = "DEF" ∨ pyUpper parameter = "DEFAULT" then .ok default_value
  else
    match pyInt parameter with
    | none => .error ⟨-102, "Command error (syntax error)"⟩
    | some value =>
      if check_range = true ∧ ¬(minimum ≤ value ∧ value ≤ maximum) then
        .error ⟨-102, "Command error (out of range)"⟩
      else .ok value

/-- `ScpiInstrument.get_float_parameter`; `none` bounds model Python
`None`. -/
def get_float_parameter (parameter : String)
    (minimum maximum default_value : Option ℚ) (check_range : Bool) :
    Except SCPIError ℚ :=
  if pyUpper parameter = "MIN" ∨ pyUpper parameter = "MINIMUM" then
    match minimum with
    | none => .error ⟨-102, "Command error (invalid argument)"⟩
    | some v => .ok v
  else if pyUpper parameter = "MAX" ∨ pyUpper parameter = "MAXIMUM" then
    match maximum with
    | none => .error ⟨-102, "Command error (invalid argument)"⟩
    | some v => .ok v
  else if pyUpper parameter = "DEF" ∨ pyUpper parameter = "DEFAULT" then
    match default_value with
    | none => .error ⟨-102, "Command error (invalid argument)"⟩
    | some v => .ok v
  else
    match pyFloat parameter with
    | none => .error ⟨-102, "Command error (syntax error)"⟩
    | some value =>
      if check_range && (match minimum with
          | some m => decide (value < m)
          | none => false) then
        .error ⟨-102, "Command error (out of range)"⟩
      else if check_range && (match maximum with
          | some m => decide (m < value)
          | none => false) then
        .error ⟨-102, "Command error (out of range)"⟩
      else .ok value

/-- One entry of the global `SCPI_COMMANDS` registry: the handler's
qualified name (`Owner.method`) and its resolved per-regex commands. -/
structure RegEntry (δ : Type) where
  qualname : String
  cmds : List (Command δ)

/-- The filter from `ScpiInstrument.__init__`: keep an entry iff its
qualified name starts with `q ++ "."` for the instance's own qualname or
one of its direct bases' qualnames, then concatenate the per-regex
commands in registry order. -/
def strStartsWith (s pre : String) : Bool := pre.toList.isPrefixOf s.toList

def resolveFor {δ : Type} (qualnames : List String) (registry : List (RegEntry δ)) :
    List (Command δ) :=
  ((registry.filter
      (fun e => qualnames.any (fun q => strStartsWith e.qualname (q ++ ".")))).map
    (fun e => e.cmds)).flatten

/-!
Byte-level model of `ScpiServer.client_thread`.  Text is a list of
Unicode code points (`Nat`), the wire carries UTF-8 bytes (`Nat < 256`),
and the incremental decoder keeps the pending bytes of an unfinished
multi-byte sequence, as `codecs.getincrementaldecoder("utf-8")` does.
Ill-formed input makes the decoder raise, which kills the connection
thread; that is the `none` decoder result below.  (The stdlib decoder
additionally rejects overlong/surrogate sequences; those extra checks
are irrelevant for the well-formed streams analysed here.)
-/

/-- Number of bytes of a UTF-8 sequence, from its lead byte. -/
def utf8Len (lead : Nat) : Nat :=
  if lead ≤ 0xDF then 2 else if lead ≤ 0xEF then 3 else 4

/-- Code point of a complete UTF-8 sequence `lead :: conts`. -/
def utf8Val : List Nat → Nat
  | [l, c1] => (l - 0xC0) * 0x40 + (c1 - 0x80)
  | [l, c1, c2] => (l - 0xE0) * 0x1000 + (c1 - 0x80) * 0x40 + (c2 - 0x80)
  | [l, c1, c2, c3] =>
    (l - 0xF0) * 0x40000 + (c1 - 0x80) * 0x1000 + (c2 - 0x80) * 0x40 + (c3 - 0x80)
  | _ => 0

/-- Feed one byte to the incremental decoder: `(emitted code points,
new pending bytes)`, or `none` on ill-formed input. -/
def decodeByte (p : List Nat) (b : Nat) : Option (List Nat × List Nat) :=
  match p with
  | [] =>
    if b < 0x80 then some ([b], [])
    else if 0xC2 ≤ b ∧ b ≤ 0xF4 then some ([], [b])
    else none
  | lead :: _ =>
    if 0x80 ≤ b ∧ b ≤ 0xBF then
      let p1 := p ++ [b]
      if p1.length = utf8Len lead then some ([utf8Val p1], [])
      else some ([], p1)
    else none

/-- `decoder.decode(chunk)`: fold `decodeByte` over a chunk. -/
def decodeChunk (p : List Nat) : List Nat → Option (List Nat × List Nat)
  | [] => some ([], p)
  | b :: rest =>
    match decodeByte p b with
    | none => none
    | some (out, p1) =>
      match decodeChunk p1 rest with
      | none => none
      | some (out2, p2) => some (out ++ out2, p2)

/-- `while "\n" in buffer: line, buffer = buffer.split("\n", 1)`:
the complete (newline-terminated) lines and the leftover buffer.
Newline is code point 10. -/
def splitLines : List Nat → List (List Nat) × List Nat
  | [] => ([], [])
  | c :: rest =>
    let p := splitLines rest
    if c = 10 then ([] :: p.1, p.2)
    else
      match p.1 with
      | [] => ([], c :: p.2)
      | l :: ls => ((c :: l) :: ls, p.2)

/-- ASCII whitespace code points stripped by `str.strip`. -/
def isWsCp (n : Nat) : Bool :=
  n = 32 || n = 9 || n = 10 || n = 13 || n = 11 || n = 12

/-- `line.strip()` on code points. -/
def stripCp (l : List Nat) : List Nat :=
  ((l.dropWhile isWsCp).reverse.dropWhile isWsCp).reverse

/-- `command = line.strip(); if not command: continue`: the commands a
list of extracted lines contributes to dispatch. -/
def dispatched (ls : List (List Nat)) : List (List Nat) :=
  (ls.map stripCp).filter (fun l => l ≠ [])

/-- Per-connection state: decoder pending bytes (`none` once the
decoder has raised and the thread is dead), the text buffer, and the
commands dispatched so far. -/
structure ClientState where
  pending : Option (List Nat)
  buffer : List Nat
  sent : List (List Nat)
deriving Repr, DecidableEq

def initClient : ClientState := ⟨some [], [], []⟩

/-- One `recv` chunk processed by the `client_thread` loop body. -/
def clientStep (s : ClientState) (chunk : List Nat) : ClientState :=
  match s.pending with
  | none => s
  | some p =>
    match decodeChunk p chunk with
    | none => { s with pending := none }
    | some (chars, p1) =>
      let sl := splitLines (s.buffer ++ chars)
      ⟨some p1, sl.2, s.sent ++ dispatched sl.1⟩

/-- The whole connection: successive `recv` results folded through the
loop body (an empty final read just ends the loop, dispatching
nothing). -/
def clientRun (chunks : List (List Nat)) : ClientState :=
  chunks.foldl clientStep initClient

/-- UTF-8 encoding of one code point. -/
def utf8Enc (cp : Nat) : List Nat :=
  if cp < 0x80 then [cp]
  else if cp < 0x800 then [0xC0 + cp / 0x40, 0x80 + cp % 0x40]
  else if cp < 0x10000 then
    [0xE0 + cp / 0x1000, 0x80 + cp / 0x40 % 0x40, 0x80 + cp % 0x40]
  else
    [0xF0 + cp / 0x40000, 0x80 + cp / 0x1000 % 0x40, 0x80 + cp / 0x40 % 0x40,
     0x80 + cp % 0x40]

/-- UTF-8 encoding of a text. -/
def encodeText (t : List Nat) : List Nat := (t.map utf8Enc).flatten

/-- Valid Unicode scalar value (in range and not a surrogate). -/
def ValidCp (cp : Nat) : Prop :=
  cp < 0x110000 ∧ ¬(0xD800 ≤ cp ∧ cp < 0xE000)

/-- Modelled from the spec: the dispatch sequence the spec sentence
describes — ALL segments obtained by splitting the decoded full text on
newline (Python `text.split("\n")`, whose last element is the tail
after the final newline), stripped, empty ones skipped. -/
def specDispatched (t : List Nat) : List (List Nat) :=
  dispatched ((splitLines t).1 ++ [(splitLines t).2])

/-- The ESR bit the range table of the spec assigns to an error code:
`(-200, -100]` → 0x20, `(-300, -200]` → 0x10, `(-400, -300]` → 0x08,
`<= -400` → 0x04, anything else → 0x10. -/
def esrBitFor (c : Int) : Nat :=
  if -200 < c ∧ c ≤ -100 then ESR_CMD_ERROR
  else if -300 < c ∧ c ≤ -200 then ESR_EXEC_ERROR
  else if -400 < c ∧ c ≤ -300 then ESR_DDE_ERROR
  else if c ≤ -400 then ESR_QUERY_ERROR
  else ESR_EXEC_ERROR

/-- Modelled from the spec: the SCPI string-escaping convention the spec
ascribes to `SYSTem:ERRor?` — every double quote embedded in the message
is doubled.  (The source f-string does not implement this.) -/
def scpiDoubleQuotes (m : String) : String :=
  String.mk (m.toList.foldr (fun c acc => if c = '"' then c :: c :: acc else c :: acc) [])

/-- Sessions of the base instrument reachable from a fresh session by
dispatched commands and `push_error` calls. -/
inductive Reach (ident : String) : GSession Unit → Prop where
  | init : Reach ident freshSession
  | cmd (s : GSession Unit) (line : String) :
      Reach ident s → Reach ident (handle_command (baseCommands ident) s line).2
  | push (s : GSession Unit) (c : Int) (m : String) :
      Reach ident s → Reach ident (push_error s c m)

/-- A command registered only under a grandparent type, for exercising
registry resolution. -/
def grandCmd : Command Unit :=
  ⟨fun l => l = "GRAND:ONLY?", fun _ s => .ok (some "1") s⟩

/-- A registry whose only entry is owned by the grandparent type
`Grand`. -/
def toyRegistry : List (RegEntry Unit) := [⟨"Grand.grand_cmd", [grandCmd]⟩]

/-! ## Helper lemmas -/

/-- `push_error` in closed form: append the entry, OR the bit of the
range table, touch nothing else. -/
theorem push_error_eq {δ : Type} (s : GSession δ) (c : Int) (m : String) :
    push_error s c m =
      ⟨s.errors ++ [(c, m)], s.esr ||| esrBitFor c, s.sre, s.dev⟩ := by
  unfold push_error esrBitFor
  split_ifs <;> first | rfl | omega

/-- `find?` returns the first element satisfying the predicate. -/
theorem find_first {α : Type} (p : α → Bool) (pre : List α) (c : α) (post : List α)
    (hpre : ∀ x ∈ pre, p x = false) (hc : p c = true) :
    (pre ++ c :: post).find? p = some c := by
  induction pre with
  | nil => simp [List.find?, hc]
  | cons a pre ih =>
    have ha := hpre a (by simp)
    simp only [List.cons_append, List.find?, ha]
    exact ih fun x hx => hpre x (by simp [hx])

/-! ## Claim theorems -/

/-- C1: `push_error(c, m)` appends `(c, m)` to the end of the error
queue and ORs into the ESR exactly the bit of the range table
(`esrBitFor`): 0x20 for `(-200, -100]`, 0x10 for `(-300, -200]`, 0x08
for `(-400, -300]`, 0x04 for `c ≤ -400`, 0x10 as fallback; from ESR = 0,
pushing -113 / -350 / -430 sets exactly 0x20 / 0x08 / 0x04. -/
theorem push_error_ranges {δ : Type} (s : GSession δ) (c : Int) (m : String) :
    push_error s c m =
      ⟨s.errors ++ [(c, m)], s.esr ||| esrBitFor c, s.sre, s.dev⟩ ∧
    (push_error freshSession (-113) m).esr = 0x20 ∧
    (push_error freshSession (-350) m).esr = 0x08 ∧
    (push_error freshSession (-430) m).esr = 0x04 := by
  have hesr : ∀ (c1 : Int) (m1 : String),
      (push_error freshSession c1 m1).esr = esrBitFor c1 := by
    intro c1 m1
    rw [push_error_eq]
    exact Nat.zero_or _
  refine ⟨push_error_eq s c m, ?_, ?_, ?_⟩ <;> rw [hesr] <;> decide

/-- C2: `handle_command` dispatches to the first command in list order
whose pattern matches and returns its result; with no match it pushes
`(-113, "Undefined header")` and returns none; a handler raising
`SCPIError(code, message)` pushes `(code, message)` and returns none;
any other handler exception pushes `(-300, "Device error")` and returns
none.  In every case `handle_command` returns a (response, state) pair,
so no exception escapes and the session stays usable. -/
theorem handle_command_contract {δ : Type} (cmds : List (Command δ))
    (s : GSession δ) (line : String) :
    (∀ pre c post, cmds = pre ++ c :: post →
      (∀ x ∈ pre, x.matcher line = false) → c.matcher line = true →
      (∀ r s1, c.run line s = .ok r s1 → handle_command cmds s line = (r, s1)) ∧
      (∀ code msg s1, c.run line s = .scpiErr code msg s1 →
        handle_command cmds s line = (none, push_error s1 code msg)) ∧
      (∀ s1, c.run line s = .fault s1 →
        handle_command cmds s line = (none, push_error s1 (-300) "Device error"))) ∧
    ((∀ x ∈ cmds, x.matcher line = false) →
      handle_command cmds s line = (none, push_error s (-113) "Undefined header")) := by
  constructor
  · rintro pre c post rfl hpre hc
    have hf := find_first (fun x => x.matcher line) pre c post hpre hc
    refine ⟨?_, ?_, ?_⟩
    · intro r s1 hrun; simp [handle_command, hf, hrun]
    · intro code msg s1 hrun; simp [handle_command, hf, hrun]
    · intro s1 hrun; simp [handle_command, hf, hrun]
  · intro hall
    have hf : cmds.find? (fun x => x.matcher line) = none :=
      List.find?_eq_none.mpr (by simpa using hall)
    simp [handle_command, hf]

/-- Witness for C2: the base instrument receiving an unknown header. -/
theorem handle_command_contract_app :
    handle_command (baseCommands "WB") freshSession "BOGUS:COMMAND" =
      (none, push_error freshSession (-113) "Undefined header") :=
  (handle_command_contract (baseCommands "WB") freshSession "BOGUS:COMMAND").2
    (by decide)

/-- On the line `SYST:ERR?`, pattern search lands on
`get_system_error`. -/
theorem find_syst_err (ident : String) :
    (baseCommands ident).find? (fun c => c.matcher "SYST:ERR?") =
      some get_system_error := rfl

/-- On the line `*ESR?`, pattern search lands on `esr_query`. -/
theorem find_esr_q (ident : String) :
    (baseCommands ident).find? (fun c => c.matcher "*ESR?") = some esr_query :=
  rfl

/-- On the line `*SRE 32`, pattern search lands on `sre_set`. -/
theorem find_sre_set (ident : String) :
    (baseCommands ident).find? (fun c => c.matcher "*SRE 32") = some sre_set :=
  rfl

/-- `SYSTem:ERRor?` on an empty queue answers `0,"No error"` and leaves
the session unchanged. -/
theorem syst_err_empty (ident : String) (s : GSession Unit)
    (h : s.errors = []) :
    handle_command (baseCommands ident) s "SYST:ERR?" =
      (some "0,\"No error\"", s) := by
  simp [handle_command, find_syst_err, get_system_error, h]

/-- `SYSTem:ERRor?` pops the head of the queue and formats it with the
message verbatim. -/
theorem syst_err_pop (ident : String) (s : GSession Unit) (code : Int)
    (msg : String) (rest : List (Int × String))
    (h : s.errors = (code, msg) :: rest) :
    handle_command (baseCommands ident) s "SYST:ERR?" =
      (some (toString code ++ "," ++ "\"" ++ msg ++ "\""),
       { s with errors := rest }) := by
  simp [handle_command, find_syst_err, get_system_error, h]

/-- C3 (amended): the `SYSTem:ERRor?` handler pops the oldest (FIFO)
error-queue entry, or uses `(0, "No error")` when the queue is empty,
and returns `<code>,"<message>"` with the message embedded verbatim
(embedded double quotes are NOT doubled); after
`push_error(-113, "Undefined header")` it returns exactly
`-113,"Undefined header"` once and then reverts to `0,"No error"`. -/
theorem get_system_error_fifo (ident : String) (s : GSession Unit) :
    (s.errors = [] →
      handle_command (baseCommands ident) s "SYST:ERR?" =
        (some "0,\"No error\"", s)) ∧
    (∀ code msg rest, s.errors = (code, msg) :: rest →
      handle_command (baseCommands ident) s "SYST:ERR?" =
        (some (toString code ++ "," ++ "\"" ++ msg ++ "\""),
         { s with errors := rest })) ∧
    handle_command (baseCommands ident)
        (push_error freshSession (-113) "Undefined header") "SYST:ERR?" =
      (some "-113,\"Undefined header\"", ⟨[], 0x20, 0, ()⟩) ∧
    handle_command (baseCommands ident)
        (⟨[], 0x20, 0, ()⟩ : GSession Unit) "SYST:ERR?" =
      (some "0,\"No error\"", ⟨[], 0x20, 0, ()⟩) := by
  have hp : push_error freshSession (-113) "Undefined header" =
      (⟨[((-113 : Int), "Undefined header")], 0x20, 0, ()⟩ : GSession Unit) := by
    rw [push_error_eq]; decide
  refine ⟨syst_err_empty ident s, fun code msg rest h => syst_err_pop ident s code msg rest h, ?_, ?_⟩
  · rw [hp, syst_err_pop ident _ (-113) "Undefined header" [] rfl]
    decide
  · exact syst_err_empty ident _ rfl

/-- Witness for C3: draining the error queue of a session that holds
one entry, then finding it empty. -/
theorem get_system_error_fifo_app :
    handle_command (baseCommands "WB")
        (push_error freshSession (-113) "Undefined header") "SYST:ERR?" =
      (some "-113,\"Undefined header\"", ⟨[], 0x20, 0, ()⟩) ∧
    handle_command (baseCommands "WB")
        (⟨[], 0x20, 0, ()⟩ : GSession Unit) "SYST:ERR?" =
      (some "0,\"No error\"", ⟨[], 0x20, 0, ()⟩) :=
  ⟨(get_system_error_fifo "WB" freshSession).2.2.1,
   (get_system_error_fifo "WB" freshSession).2.2.2⟩

/-- Counterexample for C3 as stated: for a message holding an embedded
double quote the handler emits it verbatim, not doubled as the claimed
SCPI escaping convention would. -/
theorem get_system_error_not_doubled :
    (handle_command (baseCommands "WB")
        (push_error freshSession (-100) "a\"b") "SYST:ERR?").1 =
      some ("-100," ++ "\"" ++ "a\"b" ++ "\"") ∧
    ("-100," ++ "\"" ++ "a\"b" ++ "\"") ≠
      ("-100," ++ "\"" ++ scpiDoubleQuotes "a\"b" ++ "\"") := by decide

/-- C4 (amended): the Line Server writes a response line (response plus
trailing newline) back exactly when the handler result is not none; the
non-query command `*SRE <mask>` returns the empty string (not none), so
it emits exactly one newline byte back to the client. -/
theorem server_writeback (ident : String) (s : GSession Unit) (r : String) :
    respBytes none = "" ∧
    respBytes (some r) = r ++ "\n" ∧
    handle_command (baseCommands ident) s "*SRE 32" =
      (some "", { s with sre := 32 }) ∧
    respBytes (handle_command (baseCommands ident) s "*SRE 32").1 = "\n" := by
  have hmask : natOfDigits ((sreSetArg "*SRE 32").getD "").data &&& 0xFF = 32 := by
    decide
  have h : handle_command (baseCommands ident) s "*SRE 32" =
      (some "", { s with sre := 32 }) := by
    simp [handle_command, find_sre_set, sre_set, hmask]
  exact ⟨rfl, rfl, h, by rw [h]; rfl⟩

/-- Counterexample for C4 as stated: `*SRE 32` produces `some ""`, and
the server writes a bare newline for it — one byte, not nothing. -/
theorem sre_set_emits_newline :
    (handle_command (baseCommands "WB") freshSession "*SRE 32").1 = some "" ∧
    respBytes (handle_command (baseCommands "WB") freshSession "*SRE 32").1 =
      "\n" ∧
    ("\n" : String) ≠ "" := by decide

/-- C6: `*ESR?` answers the current ESR as a decimal string and zeroes
the ESR, leaving SRE and the error queue unchanged; after one
`push_error` from fresh, two consecutive `*ESR?` calls answer the
pushed bits and then `"0"`. -/
theorem esr_query_read_and_clear (ident : String) (s : GSession Unit)
    (c : Int) (m : String) :
    handle_command (baseCommands ident) s "*ESR?" =
      (some (toString s.esr), { s with esr := 0 }) ∧
    (handle_command (baseCommands ident) (push_error freshSession c m)
        "*ESR?").1 = some (toString (esrBitFor c)) ∧
    (handle_command (baseCommands ident)
        (handle_command (baseCommands ident) (push_error freshSession c m)
          "*ESR?").2 "*ESR?").1 = some "0" := by
  have hq : ∀ s1 : GSession Unit,
      handle_command (baseCommands ident) s1 "*ESR?" =
        (some (toString s1.esr), { s1 with esr := 0 }) := by
    intro s1
    simp [handle_command, find_esr_q, esr_query]
  refine ⟨hq s, ?_, ?_⟩
  · rw [hq, push_error_eq]
    simp [freshSession]
  · rw [hq, hq]
    simp
    rfl

/-- Meta-token `MIN`: `get_float_parameter` answers the minimum bound,
or the invalid-argument error when it is unset. -/
theorem gfp_min (p : String) (mi ma df : Option ℚ) (cr : Bool)
    (h : pyUpper p = "MIN" ∨ pyUpper p = "MINIMUM") :
    get_float_parameter p mi ma df cr =
      match mi with
      | none => .error ⟨-102, "Command error (invalid argument)"⟩
      | some v => .ok v := by
  unfold get_float_parameter
  rw [if_pos h]

/-- Meta-token `MAX`: `get_float_parameter` answers the maximum bound,
or the invalid-argument error when it is unset. -/
theorem gfp_max (p : String) (mi ma df : Option ℚ) (cr : Bool)
    (h : pyUpper p = "MAX" ∨ pyUpper p = "MAXIMUM") :
    get_float_parameter p mi ma df cr =
      match ma with
      | none => .error ⟨-102, "Command error (invalid argument)"⟩
      | some v => .ok v := by
  have h1 : ¬(pyUpper p = "MIN" ∨ pyUpper p = "MINIMUM") := by
    rcases h with h | h <;> rw [h] <;> decide
  unfold get_float_parameter
  rw [if_neg h1, if_pos h]

/-- Meta-token `DEF`: `get_float_parameter` answers the default value,
or the invalid-argument error when it is unset. -/
theorem gfp_def (p : String) (mi ma df : Option ℚ) (cr : Bool)
    (h : pyUpper p = "DEF" ∨ pyUpper p = "DEFAULT") :
    get_float_parameter p mi ma df cr =
      match df with
      | none => .error ⟨-102, "Command error (invalid argument)"⟩
      | some v => .ok v := by
  have h1 : ¬(pyUpper p = "MIN" ∨ pyUpper p = "MINIMUM") := by
    rcases h with h | h <;> rw [h] <;> decide
  have h2 : ¬(pyUpper p = "MAX" ∨ pyUpper p = "MAXIMUM") := by
    rcases h with h | h <;> rw [h] <;> decide
  unfold get_float_parameter
  rw [if_neg h1, if_neg h2, if_pos h]

/-- Non-meta token: `get_float_parameter` parses it as a float, fails
with the syntax error when unparsable, and otherwise applies the
skippable inclusive range check. -/
theorem gfp_nonmeta (p : String) (mi ma df : Option ℚ) (cr : Bool)
    (h1 : ¬(pyUpper p = "MIN" ∨ pyUpper p = "MINIMUM"))
    (h2 : ¬(pyUpper p = "MAX" ∨ pyUpper p = "MAXIMUM"))
    (h3 : ¬(pyUpper p = "DEF" ∨ pyUpper p = "DEFAULT")) :
    get_float_parameter p mi ma df cr =
      match pyFloat p with
      | none => .error ⟨-102, "Command error (syntax error)"⟩
      | some value =>
        if cr && ((match mi with
            | some m => decide (value < m)
            | none => false) ||
          (match ma with
            | some m => decide (m < value)
            | none => false)) then
          .error ⟨-102, "Command error (out of range)"⟩
        else .ok value := by
  unfold get_float_parameter
  rw [if_neg h1, if_neg h2, if_neg h3]
  cases hp : pyFloat p with
  | none => rfl
  | some v =>
    simp only
    cases cr with
    | false => simp
    | true =>
      cases hmi : (match mi with
          | some m => decide (v < m)
          | none => false) with
      | true => simp [hmi]
      | false =>
        cases hma : (match ma with
            | some m => decide (m < v)
            | none => false) with
        | true => simp [hmi, hma]
        | false => simp [hmi, hma]

/-- Meta tokens for `get_int_parameter`: minimum, maximum or default is
returned directly, with no range check. -/
theorem gip_meta (p : String) (mi ma df : Int) (cr : Bool) :
    ((pyUpper p = "MIN" ∨ pyUpper p = "MINIMUM") →
      get_int_parameter p mi ma df cr = .ok mi) ∧
    ((pyUpper p = "MAX" ∨ pyUpper p = "MAXIMUM") →
      get_int_parameter p mi ma df cr = .ok ma) ∧
    ((pyUpper p = "DEF" ∨ pyUpper p = "DEFAULT") →
      get_int_parameter p mi ma df cr = .ok df) := by
  refine ⟨fun h => ?_, fun h => ?_, fun h => ?_⟩
  · unfold get_int_parameter
    rw [if_pos h]
  · have h1 : ¬(pyUpper p = "MIN" ∨ pyUpper p = "MINIMUM") := by
      rcases h with h | h <;> rw [h] <;> decide
    unfold get_int_parameter
    rw [if_neg h1, if_pos h]
  · have h1 : ¬(pyUpper p = "MIN" ∨ pyUpper p = "MINIMUM") := by
      rcases h with h | h <;> rw [h] <;> decide
    have h2 : ¬(pyUpper p = "MAX" ∨ pyUpper p = "MAXIMUM") := by
      rcases h with h | h <;> rw [h] <;> decide
    unfold get_int_parameter
    rw [if_neg h1, if_neg h2, if_pos h]

/-- C5: `get_float_parameter` maps the case-insensitive tokens
MIN/MINIMUM, MAX/MAXIMUM, DEF/DEFAULT to the minimum, maximum and
default, raising an `SCPIError` when the requested bound is unset; any
other token is parsed as a float, raising a syntax-class `SCPIError`
when not numeric; with `check_range` true the range check is inclusive
on both ends and each bound is independently skippable when `none`;
concretely MAX → 10, DEF → 5, "15" and "abc" raise. -/
theorem get_float_parameter_spec (p : String) (mi ma df : Option ℚ)
    (cr : Bool) :
    ((pyUpper p = "MIN" ∨ pyUpper p = "MINIMUM") →
      get_float_parameter p mi ma df cr =
        match mi with
        | none => .error ⟨-102, "Command error (invalid argument)"⟩
        | some v => .ok v) ∧
    ((pyUpper p = "MAX" ∨ pyUpper p = "MAXIMUM") →
      get_float_parameter p mi ma df cr =
        match ma with
        | none => .error ⟨-102, "Command error (invalid argument)"⟩
        | some v => .ok v) ∧
    ((pyUpper p = "DEF" ∨ pyUpper p = "DEFAULT") →
      get_float_parameter p mi ma df cr =
        match df with
        | none => .error ⟨-102, "Command error (invalid argument)"⟩
        | some v => .ok v) ∧
    (¬(pyUpper p = "MIN" ∨ pyUpper p = "MINIMUM") →
     ¬(pyUpper p = "MAX" ∨ pyUpper p = "MAXIMUM") →
     ¬(pyUpper p = "DEF" ∨ pyUpper p = "DEFAULT") →
      (pyFloat p = none →
        get_float_parameter p mi ma df cr =
          .error ⟨-102, "Command error (syntax error)"⟩) ∧
      (∀ v, pyFloat p = some v →
        get_float_parameter p mi ma df true =
          if (match mi with
              | some m => decide (v < m)
              | none => false) ||
            (match ma with
              | some m => decide (m < v)
              | none => false) then
            .error ⟨-102, "Command error (out of range)"⟩
          else .ok v) ∧
      (∀ v lo hi, pyFloat p = some v → mi = some lo → ma = some hi →
        lo ≤ v → v ≤ hi → get_float_parameter p mi ma df true = .ok v)) ∧
    get_float_parameter "MAX" (some 0) (some 10) (some 5) true = .ok 10 ∧
    get_float_parameter "DEF" (some 0) (some 10) (some 5) true = .ok 5 ∧
    get_float_parameter "15" (some 0) (some 10) (some 5) true =
      .error ⟨-102, "Command error (out of range)"⟩ ∧
    get_float_parameter "abc" (some 0) (some 10) (some 5) true =
      .error ⟨-102, "Command error (syntax error)"⟩ := by
  refine ⟨gfp_min p mi ma df cr, gfp_max p mi ma df cr, gfp_def p mi ma df cr,
    fun h1 h2 h3 => ⟨?_, ?_, ?_⟩, by decide, by decide, by decide, by decide⟩
  · intro hp
    rw [gfp_nonmeta p mi ma df cr h1 h2 h3, hp]
  · intro v hp
    rw [gfp_nonmeta p mi ma df true h1 h2 h3, hp]
    simp
  · intro v lo hi hp hlo hhi h4 h5
    subst hlo hhi
    rw [gfp_nonmeta p (some lo) (some hi) df true h1 h2 h3, hp]
    simp [not_lt.mpr h4, not_lt.mpr h5]

/-- Witness for C5: a mixed-case `MiN` meta token resolves to the
minimum bound. -/
theorem get_float_parameter_spec_app :
    get_float_parameter "MiN" (some 3) (some 10) (some 5) true =
      Except.ok 3 :=
  (get_float_parameter_spec "MiN" (some 3) (some 10) (some 5) true).1
    (Or.inl (by decide))

/-- C9: meta-value tokens bypass range validation entirely — for every
minimum, maximum and default, `get_int_parameter` and
`get_float_parameter` on MIN/MAX/DEF (any letter case, long or short
form) return the bound or default with no range check even when
`check_range` is true; `get_int_parameter "DEF" 0 10 99` returns 99. -/
theorem meta_bypasses_range (p : String) (mi ma df : Int) (a b d : ℚ) :
    ((pyUpper p = "MIN" ∨ pyUpper p = "MINIMUM") →
      get_int_parameter p mi ma df true = .ok mi ∧
      get_float_parameter p (some a) (some b) (some d) true = .ok a) ∧
    ((pyUpper p = "MAX" ∨ pyUpper p = "MAXIMUM") →
      get_int_parameter p mi ma df true = .ok ma ∧
      get_float_parameter p (some a) (some b) (some d) true = .ok b) ∧
    ((pyUpper p = "DEF" ∨ pyUpper p = "DEFAULT") →
      get_int_parameter p mi ma df true = .ok df ∧
      get_float_parameter p (some a) (some b) (some d) true = .ok d) ∧
    get_int_parameter "DEF" 0 10 99 true = .ok 99 := by
  refine ⟨fun h => ⟨(gip_meta p mi ma df true).1 h, ?_⟩,
    fun h => ⟨(gip_meta p mi ma df true).2.1 h, ?_⟩,
    fun h => ⟨(gip_meta p mi ma df true).2.2 h, ?_⟩, by decide⟩
  · rw [gfp_min p (some a) (some b) (some d) true h]
  · rw [gfp_max p (some a) (some b) (some d) true h]
  · rw [gfp_def p (some a) (some b) (some d) true h]

/-- Witness for C9: `get_int_parameter "DEF" 0 10 99` answers 99, a
value outside the declared range, without raising. -/
theorem meta_bypasses_range_app :
    get_int_parameter "def" 0 10 99 true = Except.ok 99 ∧
    get_float_parameter "default" (some 0) (some 10) (some 99) true =
      Except.ok 99 :=
  ⟨((meta_bypasses_range "def" 0 10 99 0 10 99).2.2.1 (by decide)).1,
   ((meta_bypasses_range "default" 0 10 99 0 10 99).2.2.1 (by decide)).2⟩

/-- C7: resolution at construction keeps exactly the registered
commands whose owning-type qualifier prefix-matches the instance's own
type name or a declared direct base type name; an entry registered only
under a grandparent type is filtered out, and a line matched only by
such an entry dispatches to the undefined-header error. -/
theorem resolveFor_direct_bases {δ : Type} (qualnames : List String)
    (registry : List (RegEntry δ)) (e : RegEntry δ) (s : GSession δ)
    (line : String) :
    (∀ c : Command δ, c ∈ resolveFor qualnames registry ↔
      ∃ x, x ∈ registry ∧
        qualnames.any (fun q => strStartsWith x.qualname (q ++ ".")) = true ∧
        c ∈ x.cmds) ∧
    (e ∈ registry →
      (∀ q ∈ qualnames, strStartsWith e.qualname (q ++ ".") = false) →
      e ∉ registry.filter
        (fun x => qualnames.any (fun q => strStartsWith x.qualname (q ++ ".")))) ∧
    ((∀ x ∈ registry, x.cmds.any (fun c => c.matcher line) = true →
        ∀ q ∈ qualnames, strStartsWith x.qualname (q ++ ".") = false) →
      handle_command (resolveFor qualnames registry) s line =
        (none, push_error s (-113) "Undefined header")) := by
  refine ⟨?_, ?_, ?_⟩
  · intro c
    simp only [resolveFor, List.mem_flatten, List.mem_map, List.mem_filter]
    constructor
    · rintro ⟨l, ⟨x, ⟨hx, hq⟩, rfl⟩, hc⟩
      exact ⟨x, hx, hq, hc⟩
    · rintro ⟨x, hx, hq, hc⟩
      exact ⟨x.cmds, ⟨x, ⟨hx, hq⟩, rfl⟩, hc⟩
  · intro hmem hall hcontra
    have hq := (List.mem_filter.mp hcontra).2
    obtain ⟨q, hq1, hq2⟩ := List.any_eq_true.mp hq
    rw [hall q hq1] at hq2
    cases hq2
  · intro h
    have hnone : (resolveFor qualnames registry).find?
        (fun c => c.matcher line) = none := by
      rw [List.find?_eq_none]
      intro c hc
      simp only [resolveFor, List.mem_flatten, List.mem_map,
        List.mem_filter] at hc
      obtain ⟨l, ⟨x, ⟨hx, hq⟩, rfl⟩, hc⟩ := hc
      intro hmatch
      have hany : x.cmds.any (fun c => c.matcher line) = true :=
        List.any_eq_true.mpr ⟨c, hc, hmatch⟩
      obtain ⟨q, hq1, hq2⟩ := List.any_eq_true.mp hq
      rw [h x hx hany q hq1] at hq2
      cases hq2
    simp [handle_command, hnone]

/-- Witness for C7: a registry holding only a grandparent-owned command
does not serve that command to a `["Child", "Parent"]` instance. -/
theorem resolveFor_direct_bases_app :
    handle_command (resolveFor ["Child", "Parent"] toyRegistry) freshSession
        "GRAND:ONLY?" =
      (none, push_error freshSession (-113) "Undefined header") :=
  (resolveFor_direct_bases ["Child", "Parent"] toyRegistry
    ⟨"Grand.grand_cmd", [grandCmd]⟩ freshSession "GRAND:ONLY?").2.2 (by decide)

/-- `push_error` keeps SRE within 8 bits and ESR inside the mask
0x3D. -/
theorem push_preserves (s : GSession Unit) (c : Int) (m : String)
    (h : s.sre ≤ 255 ∧ s.esr ||| 0x3D = 0x3D) :
    (push_error s c m).sre ≤ 255 ∧ (push_error s c m).esr ||| 0x3D = 0x3D := by
  rw [push_error_eq]
  refine ⟨h.1, ?_⟩
  have hb : esrBitFor c ||| 0x3D = 0x3D := by
    unfold esrBitFor
    split_ifs <;> decide
  rw [Nat.lor_assoc, hb, h.2]

/-- Every base-instrument command keeps SRE within 8 bits and ESR
inside the mask 0x3D. -/
theorem handle_preserves (ident : String) (s : GSession Unit) (line : String)
    (h : s.sre ≤ 255 ∧ s.esr ||| 0x3D = 0x3D) :
    (handle_command (baseCommands ident) s line).2.sre ≤ 255 ∧
    (handle_command (baseCommands ident) s line).2.esr ||| 0x3D = 0x3D := by
  unfold handle_command
  cases hf : (baseCommands ident).find? (fun c => c.matcher line) with
  | none =>
    simp only
    exact push_preserves s (-113) "Undefined header" h
  | some c =>
    have hc : c ∈ baseCommands ident := List.mem_of_find?_eq_some hf
    simp only [baseCommands, List.mem_cons, List.not_mem_nil, or_false] at hc
    rcases hc with rfl | rfl | rfl | rfl | rfl | rfl | rfl | rfl | rfl
    · exact h
    · refine ⟨h.1, ?_⟩
      simp only [get_operation_complete]
      rw [Nat.lor_assoc]
      exact h.2
    · exact ⟨h.1, show (0 : Nat) ||| 0x3D = 0x3D from by decide⟩
    · exact ⟨h.1, show (0 : Nat) ||| 0x3D = 0x3D from by decide⟩
    · exact ⟨h.1, show (0 : Nat) ||| 0x3D = 0x3D from by decide⟩
    · refine ⟨?_, h.2⟩
      simp only [sre_set]
      exact Nat.le_trans (Nat.and_le_right) (by decide)
    · exact h
    · exact h
    · simp only [get_system_error]
      cases herr : s.errors with
      | nil => exact h
      | cons e rest =>
        cases e
        exact h

/-- C10: from a fresh session, after any sequence of dispatched
commands and `push_error` calls, SRE stays in [0, 255] and ESR stays a
sub-mask of 0x3D (only bits 0x01, 0x04, 0x08, 0x10, 0x20), so both
registers fit in 8 bits. -/
theorem registers_8bit (ident : String) (s : GSession Unit)
    (h : Reach ident s) :
    s.sre ≤ 255 ∧ s.esr ||| 0x3D = 0x3D := by
  induction h with
  | init => decide
  | cmd s1 line h1 ih => exact handle_preserves ident s1 line ih
  | push s1 c m h1 ih => exact push_preserves s1 c m ih

/-- Witness for C10: the session reached by one error push from
fresh. -/
theorem registers_8bit_app :
    (push_error freshSession (-113) "Undefined header").sre ≤ 255 ∧
    (push_error freshSession (-113) "Undefined header").esr ||| 0x3D = 0x3D :=
  registers_8bit "WB" _
    (Reach.push freshSession (-113) "Undefined header" Reach.init)

/-- `dispatched` distributes over appended line lists. -/
theorem dispatched_append (a b : List (List Nat)) :
    dispatched (a ++ b) = dispatched a ++ dispatched b := by
  simp [dispatched]

/-- The incremental decoder processes a concatenation chunk by
chunk. -/
theorem decodeChunk_append (a : List Nat) :
    ∀ (p b : List Nat),
      decodeChunk p (a ++ b) =
        match decodeChunk p a with
        | none => none
        | some (o1, p1) =>
          match decodeChunk p1 b with
          | none => none
          | some (o2, p2) => some (o1 ++ o2, p2) := by
  induction a with
  | nil =>
    intro p b
    simp only [List.nil_append, decodeChunk]
    cases decodeChunk p b with
    | none => rfl
    | some r => rfl
  | cons x a ih =>
    intro p b
    simp only [List.cons_append, decodeChunk]
    cases decodeByte p x with
    | none => rfl
    | some r =>
      obtain ⟨o, p1⟩ := r
      simp only [List.append_eq]
      rw [ih p1 b]
      cases decodeChunk p1 a with
      | none => rfl
      | some r2 =>
        obtain ⟨o2, p2⟩ := r2
        simp only
        cases decodeChunk p2 b with
        | none => rfl
        | some r3 =>
          obtain ⟨o3, p3⟩ := r3
          simp

/-- Line extraction processes a concatenation piece by piece: the
remainder of the first piece is prepended to the second. -/
theorem splitLines_append (a : List Nat) :
    ∀ b : List Nat,
      splitLines (a ++ b) =
        ((splitLines a).1 ++ (splitLines ((splitLines a).2 ++ b)).1,
         (splitLines ((splitLines a).2 ++ b)).2) := by
  induction a with
  | nil => intro b; rfl
  | cons c a ih =>
    intro b
    by_cases hc : c = 10
    · subst hc
      simp [splitLines, ih b]
    · simp only [List.cons_append, splitLines, if_neg hc, List.append_eq]
      cases ha : (splitLines a).1 with
      | nil =>
        simp only [ih b, ha, List.nil_append, splitLines, if_neg hc,
          List.append_eq]
      | cons l ls =>
        simp only [ih b, ha, List.append_eq]
        rfl

/-- The leftover buffer after line extraction holds no newline, so
re-extracting from it yields nothing. -/
theorem splitLines_snd (x : List Nat) :
    splitLines (splitLines x).2 = ([], (splitLines x).2) := by
  induction x with
  | nil => rfl
  | cons c x ih =>
    simp only [splitLines]
    by_cases hc : c = 10
    · simpa [hc] using ih
    · simp only [if_neg hc]
      cases hx : (splitLines x).1 with
      | nil =>
        show splitLines (c :: (splitLines x).2) = ([], c :: (splitLines x).2)
        simp only [splitLines, if_neg hc, ih]
      | cons l ls =>
        exact ih

/-- From an empty decoder state, the UTF-8 encoding of one valid scalar
decodes back to that scalar with nothing pending. -/
theorem decode_one (cp : Nat) (h1 : cp < 0x110000) :
    decodeChunk [] (utf8Enc cp) = some ([cp], []) := by
  by_cases c1 : cp < 0x80
  · simp [utf8Enc, c1, decodeChunk, decodeByte]
  · by_cases c2 : cp < 0x800
    · have e1 : utf8Enc cp = [0xC0 + cp / 0x40, 0x80 + cp % 0x40] := by
        simp [utf8Enc, c1, c2]
      have hlen : utf8Len (0xC0 + cp / 0x40) = 2 := by
        unfold utf8Len
        rw [if_pos (by omega)]
      have hb0 : decodeByte [] (0xC0 + cp / 0x40) =
          some ([], [0xC0 + cp / 0x40]) := by
        simp only [decodeByte]
        rw [if_neg (by omega), if_pos (by omega)]
      have hb1 : decodeByte [0xC0 + cp / 0x40] (0x80 + cp % 0x40) =
          some ([cp], []) := by
        simp only [decodeByte]
        rw [if_pos (by omega)]
        simp [hlen, utf8Val]
        omega
      rw [e1]
      simp [decodeChunk, hb0, hb1]
    · by_cases c3 : cp < 0x10000
      · have e1 : utf8Enc cp =
            [0xE0 + cp / 0x1000, 0x80 + cp / 0x40 % 0x40, 0x80 + cp % 0x40] := by
          simp [utf8Enc, c1, c2, c3]
        have hlen : utf8Len (0xE0 + cp / 0x1000) = 3 := by
          unfold utf8Len
          rw [if_neg (by omega), if_pos (by omega)]
        have hb0 : decodeByte [] (0xE0 + cp / 0x1000) =
            some ([], [0xE0 + cp / 0x1000]) := by
          simp only [decodeByte]
          rw [if_neg (by omega), if_pos (by omega)]
        have hb1 : decodeByte [0xE0 + cp / 0x1000] (0x80 + cp / 0x40 % 0x40) =
            some ([], [0xE0 + cp / 0x1000, 0x80 + cp / 0x40 % 0x40]) := by
          simp only [decodeByte]
          rw [if_pos (by omega)]
          simp [hlen]
        have hb2 : decodeByte [0xE0 + cp / 0x1000, 0x80 + cp / 0x40 % 0x40]
            (0x80 + cp % 0x40) = some ([cp], []) := by
          simp only [decodeByte]
          rw [if_pos (by omega)]
          have d3 : cp / 0x1000 = cp / 0x40 / 0x40 :=
            (Nat.div_div_eq_div_mul cp 0x40 0x40).symm
          simp [hlen, utf8Val]
          omega
        rw [e1]
        simp [decodeChunk, hb0, hb1, hb2]
      · have e1 : utf8Enc cp =
            [0xF0 + cp / 0x40000, 0x80 + cp / 0x1000 % 0x40,
             0x80 + cp / 0x40 % 0x40, 0x80 + cp % 0x40] := by
          simp [utf8Enc, c1, c2, c3]
        have hlen : utf8Len (0xF0 + cp / 0x40000) = 4 := by
          unfold utf8Len
          rw [if_neg (by omega), if_neg (by omega)]
        have hb0 : decodeByte [] (0xF0 + cp / 0x40000) =
            some ([], [0xF0 + cp / 0x40000]) := by
          simp only [decodeByte]
          rw [if_neg (by omega), if_pos (by omega)]
        have hb1 : decodeByte [0xF0 + cp / 0x40000] (0x80 + cp / 0x1000 % 0x40) =
            some ([], [0xF0 + cp / 0x40000, 0x80 + cp / 0x1000 % 0x40]) := by
          simp only [decodeByte]
          rw [if_pos (by omega)]
          simp [hlen]
        have hb2 : decodeByte [0xF0 + cp / 0x40000, 0x80 + cp / 0x1000 % 0x40]
            (0x80 + cp / 0x40 % 0x40) =
            some ([], [0xF0 + cp / 0x40000, 0x80 + cp / 0x1000 % 0x40,
              0x80 + cp / 0x40 % 0x40]) := by
          simp only [decodeByte]
          rw [if_pos (by omega)]
          simp [hlen]
        have hb3 : decodeByte [0xF0 + cp / 0x40000, 0x80 + cp / 0x1000 % 0x40,
            0x80 + cp / 0x40 % 0x40] (0x80 + cp % 0x40) = some ([cp], []) := by
          simp only [decodeByte]
          rw [if_pos (by omega)]
          have d3 : cp / 0x1000 = cp / 0x40 / 0x40 :=
            (Nat.div_div_eq_div_mul cp 0x40 0x40).symm
          have d4 : cp / 0x40000 = cp / 0x1000 / 0x40 :=
            (Nat.div_div_eq_div_mul cp 0x1000 0x40).symm
          simp [hlen, utf8Val]
          omega
        rw [e1]
        simp [decodeChunk, hb0, hb1, hb2, hb3]

/-- The incremental decoder inverts `encodeText` on valid texts. -/
theorem decode_encodeText (t : List Nat) (ht : ∀ cp ∈ t, cp < 0x110000) :
    decodeChunk [] (encodeText t) = some (t, []) := by
  induction t with
  | nil => rfl
  | cons cp t ih =>
    have henc : encodeText (cp :: t) = utf8Enc cp ++ encodeText t := by
      simp [encodeText]
    rw [henc, decodeChunk_append, decode_one cp (ht cp (by simp))]
    simp only [ih fun x hx => ht x (by simp [hx])]
    simp

/-- When decoding succeeds, one loop iteration over a concatenated
chunk equals two iterations over its pieces. -/
theorem clientStep_append (s : ClientState) (a b p : List Nat)
    (hp : s.pending = some p) (r : List Nat × List Nat)
    (hr : decodeChunk p (a ++ b) = some r) :
    clientStep s (a ++ b) = clientStep (clientStep s a) b := by
  rw [decodeChunk_append] at hr
  cases ha : decodeChunk p a with
  | none => rw [ha] at hr; cases hr
  | some r1 =>
    obtain ⟨o1, p1⟩ := r1
    rw [ha] at hr
    cases hb : decodeChunk p1 b with
    | none => simp only at hr; rw [hb] at hr; cases hr
    | some r2 =>
      obtain ⟨o2, p2⟩ := r2
      simp only at hr
      rw [hb] at hr
      simp only at hr
      cases hr
      simp only [clientStep, hp, ha, hb]
      rw [decodeChunk_append, ha]
      simp only [hb]
      have hsp := splitLines_append (s.buffer ++ o1) o2
      rw [List.append_assoc] at hsp
      rw [hsp, dispatched_append]
      simp [List.append_assoc]

/-- Folding the loop body over any chunk list equals one pass over the
concatenated bytes, provided the whole stream decodes and the starting
buffer holds no newline. -/
theorem clientRun_eq_single (chunks : List (List Nat)) :
    ∀ (s : ClientState) (p : List Nat), s.pending = some p →
      splitLines s.buffer = ([], s.buffer) →
      ∀ r, decodeChunk p chunks.flatten = some r →
      chunks.foldl clientStep s = clientStep s chunks.flatten := by
  induction chunks with
  | nil =>
    intro s p hp hb r hr
    obtain ⟨pend, buf, sent⟩ := s
    simp only at hp
    subst hp
    simp only at hb
    simp [clientStep, decodeChunk, hb, dispatched]
  | cons c cs ih =>
    intro s p hp hb r hr
    have hflat : (c :: cs).flatten = c ++ cs.flatten := rfl
    rw [hflat] at hr
    rw [decodeChunk_append] at hr
    cases hc : decodeChunk p c with
    | none => rw [hc] at hr; cases hr
    | some r1 =>
      obtain ⟨o1, p1⟩ := r1
      rw [hc] at hr
      cases hcs : decodeChunk p1 cs.flatten with
      | none => simp only at hr; rw [hcs] at hr; cases hr
      | some r2 =>
        have hs1p : (clientStep s c).pending = some p1 := by
          simp [clientStep, hp, hc]
        have hs1b : splitLines (clientStep s c).buffer =
            ([], (clientStep s c).buffer) := by
          simp only [clientStep, hp, hc]
          exact splitLines_snd (s.buffer ++ o1)
        have hstep := clientStep_append s c cs.flatten p hp r (by
          rw [decodeChunk_append, hc]
          simp only
          rw [hcs]
          simp only at hr
          rw [hcs] at hr
          simp only at hr
          exact hr)
        calc (c :: cs).foldl clientStep s = cs.foldl clientStep (clientStep s c) := rfl
        _ = clientStep (clientStep s c) cs.flatten :=
            ih (clientStep s c) p1 hs1p hs1b r2 hcs
        _ = clientStep s (c :: cs).flatten := by rw [hflat, hstep]

/-- C8 (amended): for every valid UTF-8 byte stream, however it is
split into successive reads (including mid-line and mid-multi-byte
splits), the connection handler dispatches exactly the non-empty
whitespace-stripped newline-terminated lines of the decoded full text,
in order; text after the last newline stays buffered and is never
dispatched.  Sending `*ID` then `N?\n` in two reads dispatches the
single command `*IDN?`. -/
theorem client_thread_framing (t : List Nat) (ht : ∀ cp ∈ t, cp < 0x110000)
    (chunks : List (List Nat)) (hc : chunks.flatten = encodeText t) :
    (clientRun chunks).sent = dispatched (splitLines t).1 := by
  have hdec : decodeChunk [] (encodeText t) = some (t, []) :=
    decode_encodeText t ht
  have h1 : decodeChunk [] chunks.flatten = some (t, []) := by
    rw [hc]
    exact hdec
  rw [clientRun,
    clientRun_eq_single chunks initClient [] rfl rfl (t, []) h1, hc]
  simp [clientStep, initClient, hdec]

/-- Witness for C8: `*ID` then `N?\n` across two reads, and a read
split inside the two-byte UTF-8 sequence of U+00E9 followed by a
newline. -/
theorem client_thread_framing_app :
    (clientRun [[42, 73, 68], [78, 63, 10]]).sent =
      dispatched (splitLines [42, 73, 68, 78, 63, 10]).1 ∧
    (clientRun [[0xC3], [0xA9, 10]]).sent =
      dispatched (splitLines [233, 10]).1 :=
  ⟨client_thread_framing [42, 73, 68, 78, 63, 10] (by decide)
      [[42, 73, 68], [78, 63, 10]] (by decide),
   client_thread_framing [233, 10] (by decide) [[0xC3], [0xA9, 10]]
      (by decide)⟩

/-- Counterexample for C8 as stated: the one-byte stream `A` (no
trailing newline) dispatches nothing, while splitting the decoded text
on newlines as the claim words it would dispatch `A`. -/
theorem client_thread_trailing_segment :
    (clientRun [[65]]).sent = [] ∧
    specDispatched [65] = [[65]] ∧
    ([] : List (List Nat)) ≠ [[65]] := by decide

end Workbench
